import Mathlib

/-!
Verification development for the restaurant-picker backend.

The Python source is embedded shallowly:

* Python `float` values are modelled as exact rationals (`ℚ`); the few
  SQL real-valued expressions built from `cos` are modelled over `ℝ`.
* `Optional[T]` fields are `Option T`; Python truthiness of optional
  values (`if x:`, `x or d`, `x and p`) is modelled explicitly, since
  `None`, `0`, `0.0` and `""` are all falsy.
* Fallible operations (a SQL division that can hit a zero denominator,
  `random.choices` on an empty pool, request validation) return `Option`,
  with `none` standing for the raised error / rejected request.
* The randomness of `random.choices` is modelled by an oracle
  `g : ℕ → ℕ` giving the position sampled in each round of the loop
  (all weights are positive, so every position can be drawn).
-/

namespace RestaurantPicker

/-- The Pydantic model `Restaurant` (backend/app/models/restaurant.py).
Field order and optionality follow the source; floats are exact rationals. -/
structure Restaurant where
  id : String
  name : String
  address : String
  lat : ℚ
  lng : ℚ
  rating : Option ℚ
  price_level : Option ℤ
  cuisine : Option String
  source : String
  url : Option String
  num_reviews : Option ℤ
deriving DecidableEq, Repr

/-- Python `x or d` for an optional rational: `None` and `0.0` are falsy. -/
def pyOrQ (x : Option ℚ) (d : ℚ) : ℚ :=
  match x with
  | none => d
  | some v => if v = 0 then d else v

/-- Python `x or d` for an optional integer: `None` and `0` are falsy. -/
def pyOrZ (x : Option ℤ) (d : ℤ) : ℤ :=
  match x with
  | none => d
  | some v => if v = 0 then d else v

/-- Python `x or d` for an optional string: `None` and `""` are falsy. -/
def pyOrStr (x : Option String) (d : String) : String :=
  match x with
  | none => d
  | some v => if v = "" then d else v

/-- Python truthiness of an optional string (`if s:`). -/
def strOptTruthy (x : Option String) : Bool :=
  match x with
  | none => false
  | some v => decide (v ≠ "")

/-- Python `str.lower()` / SQL `lower()`: lowercase each character.  For
the ASCII data handled by this service this is exact. -/
def strLower (s : String) : String :=
  ⟨s.data.map Char.toLower⟩

/-- A string free of the SQL `LIKE` metacharacters `%` and `_`. -/
def noLikeMeta (s : String) : Prop :=
  ∀ c ∈ s.data, c ≠ '%' ∧ c ≠ '_'

instance (s : String) : Decidable (noLikeMeta s) :=
  inferInstanceAs (Decidable (∀ c ∈ s.data, c ≠ '%' ∧ c ≠ '_'))

/-- Embedding of `score_restaurant` (backend/app/services/picker.py).
The price condition `restaurant.price_level and restaurant.price_level >= 4`
uses Python truthiness of the optional int, hence the `p ≠ 0` conjunct. -/
def score_restaurant (r : Restaurant) : ℚ :=
  let rating := pyOrQ r.rating 0
  let num_reviews := pyOrZ r.num_reviews 0
  let price_penalty : ℚ :=
    match r.price_level with
    | some p => if p ≠ 0 ∧ 4 ≤ p then 1/2 else 0
    | none => 0
  let review_factor : ℚ := ((min num_reviews 300 : ℤ) : ℚ) / 300
  rating + review_factor - price_penalty

/-- Comparison used by `sorted(restaurants, key=score_restaurant, reverse=True)`:
`a` may come before `b` when `score b ≤ score a`. -/
def scoreDescRel (a b : Restaurant) : Prop :=
  score_restaurant b ≤ score_restaurant a

instance : DecidableRel scoreDescRel :=
  fun a b => inferInstanceAs (Decidable (score_restaurant b ≤ score_restaurant a))

instance : IsTotal Restaurant scoreDescRel :=
  ⟨fun a b => le_total (score_restaurant b) (score_restaurant a)⟩

instance : IsTrans Restaurant scoreDescRel :=
  ⟨fun _ _ _ h₁ h₂ => le_trans h₂ h₁⟩

/-- Python `sorted(restaurants, key=score_restaurant, reverse=True)`.
Python's `sorted` is specified as a stable sort, and with `reverse=True` the
comparison is flipped while ties still keep their original relative order;
insertion sort with `scoreDescRel` is exactly that (unique) stable sort. -/
def sortedByScoreDesc (l : List Restaurant) : List Restaurant :=
  List.insertionSort scoreDescRel l

/-- Python `list.index(x)`: position of the first element equal to `x`
(the call sites guarantee that `x` is a member). -/
def pyIndex [DecidableEq α] (x : α) : List α → ℕ
  | [] => 0
  | y :: l => if y = x then 0 else pyIndex x l + 1

/-- Placeholder value for the guarded `List.getD` below; it is never
returned, since the pool is checked to be non-empty first. -/
def defaultRestaurant : Restaurant :=
  ⟨"", "", "", 0, 0, none, none, none, "mock", none, none⟩

/-- The `for _ in range(limit)` loop of `pick_restaurants`
(backend/app/services/picker.py, lines 49-58).  Each round:
`random.choices(available, weights=available_weights, k=1)[0]` samples one
element (modelled by the oracle `g`, which supplies the sampled position
for round `t`; `random.choices` on an empty pool raises, modelled as
`none`), the element is appended to `chosen`, `available.index(r)` locates
it, both pools are popped at that index, and the loop breaks early when
the pool empties. -/
def pickLoop (g : ℕ → ℕ) :
    ℕ → ℕ → List Restaurant → List ℚ → List Restaurant → Option (List Restaurant)
  | 0, _, _, _, chosen => some chosen
  | n + 1, t, available, available_weights, chosen =>
    if available = [] then none
    else
      let i : ℕ := g t % available.length
      let r : Restaurant := available.getD i defaultRestaurant
      let chosen' := chosen ++ [r]
      let idx : ℕ := pyIndex r available
      let available' := available.eraseIdx idx
      let available_weights' := available_weights.eraseIdx idx
      if available' = [] then some chosen'
      else pickLoop g n (t + 1) available' available_weights' chosen'

/-- Embedding of `pick_restaurants` (backend/app/services/picker.py).
The guard, the clamping of `limit` to `[1, len(restaurants)]`, the `"top"`
branch, and the weighted-random branch (positive weights via
`max(score, 0.01)`, normalisation, then sampling without replacement)
follow the source line by line. -/
def pick_restaurants (g : ℕ → ℕ) (restaurants : List Restaurant)
    (limit : ℤ) (strategy : String) : Option (List Restaurant) :=
  if restaurants = [] then some []
  else
    let limit' : ℕ := (max 1 (min limit (restaurants.length : ℤ))).toNat
    if strategy = "top" then
      some ((sortedByScoreDesc restaurants).take limit')
    else
      let scores := restaurants.map (fun r => max (score_restaurant r) (1/100))
      let total := scores.sum
      let weights := scores.map (fun s => s / total)
      pickLoop g limit' 0 restaurants weights []

/-- State-passing version of the loop for the frame property: the caller's
list `restaurants` is carried through unchanged, since every mutation in
the source (`pop`) is applied to `available` / `available_weights`, which
were initialised from copies. -/
def pickLoopState (g : ℕ → ℕ) :
    ℕ → ℕ → List Restaurant → List ℚ → List Restaurant → List Restaurant →
      Option (List Restaurant) × List Restaurant
  | 0, _, _, _, chosen, restaurants => (some chosen, restaurants)
  | n + 1, t, available, available_weights, chosen, restaurants =>
    if available = [] then (none, restaurants)
    else
      let i : ℕ := g t % available.length
      let r : Restaurant := available.getD i defaultRestaurant
      let chosen' := chosen ++ [r]
      let idx : ℕ := pyIndex r available
      let available' := available.eraseIdx idx
      let available_weights' := available_weights.eraseIdx idx
      if available' = [] then (some chosen', restaurants)
      else pickLoopState g n (t + 1) available' available_weights' chosen' restaurants

/-- State-passing embedding of `pick_restaurants` that additionally returns
the value of the caller's argument list after the call.  `sorted(...)`
builds a fresh list, and `restaurants.copy()` / `weights.copy()` allocate
fresh lists (`available`, `available_weights`) that the loop pops from, so
the `restaurants` component is threaded through untouched. -/
def pick_restaurants_state (g : ℕ → ℕ) (restaurants : List Restaurant)
    (limit : ℤ) (strategy : String) : Option (List Restaurant) × List Restaurant :=
  if restaurants = [] then (some [], restaurants)
  else
    let limit' : ℕ := (max 1 (min limit (restaurants.length : ℤ))).toNat
    if strategy = "top" then
      let sorted_restaurants := sortedByScoreDesc restaurants
      (some (sorted_restaurants.take limit'), restaurants)
    else
      let scores := restaurants.map (fun r => max (score_restaurant r) (1/100))
      let total := scores.sum
      let weights := scores.map (fun s => s / total)
      let available := restaurants
      let available_weights := weights
      pickLoopState g limit' 0 available available_weights [] restaurants

/-- A row of the `restaurants` table (backend/app/db/models.py,
`RestaurantDB`).  The two timestamp columns are omitted: no claim and no
queried expression reads them. -/
structure RestaurantRow where
  id : String
  name : String
  address : String
  lat : ℚ
  lng : ℚ
  rating : Option ℚ
  price_level : Option ℤ
  cuisine : Option String
  source : String
  url : Option String
  num_reviews : Option ℤ
  city : Option String
  country : Option String
deriving DecidableEq, Repr

/-- Character-list test: the second list starts with the first. -/
def listStarts : List Char → List Char → Bool
  | [], _ => true
  | _ :: _, [] => false
  | c :: n, d :: h => decide (c = d) && listStarts n h

/-- Character-list test: the first list occurs contiguously inside the
second (substring containment). -/
def listSub : List Char → List Char → Bool
  | n, [] => n.isEmpty
  | n, d :: h => listStarts n (d :: h) || listSub n h

/-- SQL `LIKE` pattern matching over character lists: `%` matches any
(possibly empty) run of characters, `_` matches exactly one character,
every other character matches itself. -/
def likeMatch : List Char → List Char → Bool
  | [], s => s.isEmpty
  | c :: p, [] => if c = '%' then likeMatch p [] else false
  | c :: p, d :: s =>
    if c = '%' then likeMatch p (d :: s) || likeMatch (c :: p) s
    else if c = '_' then likeMatch p s
    else decide (c = d) && likeMatch p s
termination_by p s => (s.length, p.length)

/-- The pattern `f"%{location.lower()}%"` built by `search_restaurants`
(backend/app/db/crud.py, line 109). -/
def locationPattern (location : String) : String :=
  "%" ++ strLower location ++ "%"

/-- SQL `lower(column) LIKE pattern` for a nullable column: `NULL LIKE p`
is `NULL`, which is not true, so a missing value never matches. -/
def colLike (col : Option String) (pattern : String) : Bool :=
  match col with
  | none => false
  | some s => likeMatch pattern.data (strLower s).data

/-- The location `WHERE` clause of `search_restaurants`
(backend/app/db/crud.py, lines 110-116): an `OR` of `LIKE` tests against
the lowercased `city`, `address` and `name` columns. -/
def rowMatchesLocation (location : String) (row : RestaurantRow) : Bool :=
  colLike row.city (locationPattern location) ||
  colLike (some row.address) (locationPattern location) ||
  colLike (some row.name) (locationPattern location)

/-- Modelled from the spec's words for the refinement claim about location
matching: case-insensitive substring containment of the location in the
city, address, or name field (an OR of three containment tests); a missing
city never matches. -/
def specLocationMatch (location : String) (row : RestaurantRow) : Bool :=
  (match row.city with
   | none => false
   | some c => listSub (strLower location).data (strLower c).data) ||
  listSub (strLower location).data (strLower row.address).data ||
  listSub (strLower location).data (strLower row.name).data

/-- Sort key of the `ORDER BY` clause: rating descending with `NULL`s
last, then review count descending with `NULL`s last.  Mapping `NULL` to
`⊥` makes "descending by key" place `NULL`s last. -/
def sqlOrderKey (a : RestaurantRow) : Lex (WithBot ℚ × WithBot ℤ) :=
  toLex ((match a.rating with | none => ⊥ | some x => (x : WithBot ℚ)),
         (match a.num_reviews with | none => ⊥ | some x => (x : WithBot ℤ)))

/-- Row `a` may be ordered before row `b` under the `ORDER BY` clause. -/
def sqlRowOrder (a b : RestaurantRow) : Prop :=
  sqlOrderKey b ≤ sqlOrderKey a

instance : DecidableRel sqlRowOrder :=
  fun a b => inferInstanceAs (Decidable (sqlOrderKey b ≤ sqlOrderKey a))

instance : IsTotal RestaurantRow sqlRowOrder :=
  ⟨fun a b => le_total (sqlOrderKey b) (sqlOrderKey a)⟩

instance : IsTrans RestaurantRow sqlRowOrder :=
  ⟨fun _ _ _ h₁ h₂ => le_trans h₂ h₁⟩

/-- The cuisine / rating / price filters and the `ORDER BY` + `LIMIT` tail
shared by both search queries (backend/app/db/crud.py).  SQL comparisons
against `NULL` are not true, so rows missing the compared column are
dropped by the corresponding filter.  Ties in the sort key are returned in
an unspecified order by SQL; the model fixes them stably, which no theorem
below depends on. -/
def searchQueryTail (rows : List RestaurantRow) (cuisine : Option String)
    (min_rating : Option ℚ) (max_price_level : Option ℤ) (limit : ℤ) :
    List RestaurantRow :=
  let q2 :=
    if strOptTruthy cuisine then
      rows.filter (fun r =>
        match r.cuisine with
        | some c => decide (strLower c = strLower (cuisine.getD ""))
        | none => false)
    else rows
  let q3 :=
    match min_rating with
    | none => q2
    | some m => q2.filter (fun r =>
        match r.rating with
        | some x => decide (m ≤ x)
        | none => false)
  let q4 :=
    match max_price_level with
    | none => q3
    | some m => q3.filter (fun r =>
        match r.price_level with
        | some p => decide (p ≤ m)
        | none => false)
  (List.insertionSort sqlRowOrder q4).take limit.toNat

/-- Embedding of `search_restaurants` (backend/app/db/crud.py, lines
83-140) over a list of stored rows: the location filter (skipped when the
location is `None` or empty, by Python truthiness), then cuisine, rating
and price filters, the `ORDER BY`, and the `LIMIT`. -/
def search_restaurants_db (db : List RestaurantRow) (location : Option String)
    (cuisine : Option String) (min_rating : Option ℚ)
    (max_price_level : Option ℤ) (limit : ℤ) : List RestaurantRow :=
  let q1 :=
    if strOptTruthy location then db.filter (rowMatchesLocation (location.getD ""))
    else db
  searchQueryTail q1 cuisine min_rating max_price_level limit

/-- Modelled from the spec's words for the refinement claim: the same
query with the location clause replaced by plain case-insensitive
substring containment. -/
def search_restaurants_spec (db : List RestaurantRow) (location : String)
    (cuisine : Option String) (min_rating : Option ℚ)
    (max_price_level : Option ℤ) (limit : ℤ) : List RestaurantRow :=
  searchQueryTail (db.filter (specLocationMatch location))
    cuisine min_rating max_price_level limit

/-- Query parameters of `GET /restaurants/search`
(backend/app/api/restaurants.py, lines 24-48). -/
structure SearchQuery where
  location : String
  cuisine : Option String
  min_rating : Option ℚ
  max_price_level : Option ℤ
  max_results : ℤ
deriving DecidableEq, Repr

/-- The declared default of the `max_results` query parameter,
`Query(20, ge=1, le=50)`. -/
def searchMaxResultsDefault : ℤ := 20

/-- FastAPI validation of the declared `Query(..., ge=..., le=...)`
bounds: `min_rating ∈ [0, 5]`, `max_price_level ∈ [1, 4]`, and
`max_results ∈ [1, 50]` when the parameters are supplied. -/
def validSearchQuery (q : SearchQuery) : Bool :=
  (match q.min_rating with
   | none => true
   | some x => decide (0 ≤ x ∧ x ≤ 5)) &&
  (match q.max_price_level with
   | none => true
   | some p => decide (1 ≤ p ∧ p ≤ 4)) &&
  decide (1 ≤ q.max_results ∧ q.max_results ≤ 50)

/-- The `GET /restaurants/search` endpoint: FastAPI rejects a request
violating a declared parameter bound with a 422 validation error
(modelled as `none`) before the handler runs; otherwise the handler calls
`search_restaurants` with `limit=max_results`. -/
def search_endpoint (db : List RestaurantRow) (q : SearchQuery) :
    Option (List RestaurantRow) :=
  if validSearchQuery q then
    some (search_restaurants_db db (some q.location) q.cuisine q.min_rating
      q.max_price_level q.max_results)
  else none

/-- Python list slicing `data[:k]`: a negative stop counts from the end. -/
def pyTake (k : ℤ) (l : List α) : List α :=
  if 0 ≤ k then l.take k.toNat
  else l.take (l.length - (-k).toNat)

/-- The static sample data of `MockRestaurantProvider.search_restaurants`
(backend/app/services/providers.py, lines 34-74). -/
def mockSampleData : List Restaurant :=
  [⟨"1", "Pasta Palace", "123 Main St", 52.2297, 21.0122, some 4.5, some 2,
     some "italian", "mock", some "https://example.com/pasta-palace", some 120⟩,
   ⟨"2", "Sushi Garden", "456 Sakura Ave", 52.23, 21.01, some 4.7, some 3,
     some "japanese", "mock", some "https://example.com/sushi-garden", some 200⟩,
   ⟨"3", "Budget Bites", "789 Cheap St", 52.231, 21.015, some 4.0, some 1,
     some "fast food", "mock", some "https://example.com/budget-bites", some 80⟩]

/-- Embedding of `MockRestaurantProvider.search_restaurants`
(backend/app/services/providers.py, lines 25-80): `location` and
`radius_km` are accepted and ignored; when `cuisine` is truthy the sample
data is filtered by `(r.cuisine or "").lower() == cuisine.lower()`; the
result is sliced to `data[:max_results]`. -/
def mock_search_restaurants (location : String) (radius_km : ℚ)
    (cuisine : Option String) (max_results : ℤ) : List Restaurant :=
  let data := mockSampleData
  let data :=
    if strOptTruthy cuisine then
      data.filter (fun r =>
        decide (strLower (pyOrStr r.cuisine "") = strLower (cuisine.getD "")))
    else data
  pyTake max_results data

/-- SQL `radians(x)` as an exact real: degrees to radians. -/
noncomputable def sqlRadians (x : ℝ) : ℝ := x * Real.pi / 180

/-- The denominator `111.0 * abs(func.cos(func.radians(lat)))` of the
longitude half-width in `search_restaurants_near_point`
(backend/app/db/crud.py, line 176).  No floor is applied to it in the
source; the SQL float expression is modelled as an exact real. -/
noncomputable def lngDenominator (lat : ℝ) : ℝ :=
  111 * |Real.cos (sqlRadians lat)|

open Classical in
/-- The longitude half-width `lng_delta = radius_km / (111.0 *
abs(cos(radians(lat))))` (backend/app/db/crud.py, line 176); a division
whose denominator is zero raises in the database engine, modelled as
`none`. -/
noncomputable def lng_delta (radius_km lat : ℝ) : Option ℝ :=
  if lngDenominator lat = 0 then none
  else some (radius_km / lngDenominator lat)

/-- Concrete stored row whose city is New York, used as input of
witnesses and counterexamples. -/
def rowNY : RestaurantRow :=
  ⟨"ny1", "Joe Pizza", "7 Carmine St", 0, 0, none, none, none, "manual",
   none, none, some "New York", some "USA"⟩

/-- Concrete stored row named `"abc"` with no city, used as input of
counterexamples. -/
def rowABC : RestaurantRow :=
  ⟨"x1", "abc", "nowhere", 0, 0, none, none, none, "manual",
   none, none, none, none⟩

/-- Concrete candidate with id `"a"` and no optional data (score 0),
used as input of witnesses and counterexamples. -/
def candA : Restaurant :=
  ⟨"a", "Cafe A", "1 A St", 0, 0, none, none, none, "mock", none, none⟩

/-- Concrete candidate with id `"b"` and no optional data (score 0). -/
def candB : Restaurant :=
  ⟨"b", "Cafe B", "2 B St", 0, 0, none, none, none, "mock", none, none⟩

/-- Concrete candidate sharing id `"a"` with `candA` but distinct from it. -/
def candA2 : Restaurant :=
  ⟨"a", "Cafe A bis", "3 C St", 0, 0, none, none, none, "mock", none, none⟩

/-! ## Theorems -/

/-- Python `list.index` followed by `list.pop` at the found index removes
the first occurrence of the element. -/
theorem pyIndex_eraseIdx [DecidableEq α] (x : α) (l : List α) :
    l.eraseIdx (pyIndex x l) = l.erase x := by
  induction l with
  | nil => rfl
  | cons y l ih =>
    by_cases h : y = x
    · simp [pyIndex, h, List.erase_cons]
    · simp [pyIndex, h, List.erase_cons, List.eraseIdx_cons_succ, ih]

/-- The sampled element is a member of the pool. -/
theorem sampled_mem (g : ℕ → ℕ) (t : ℕ) {avail : List Restaurant}
    (h : avail ≠ []) :
    avail.getD (g t % avail.length) defaultRestaurant ∈ avail := by
  have hlt : g t % avail.length < avail.length :=
    Nat.mod_lt _ (List.length_pos.mpr h)
  rw [List.getD_eq_getElem _ _ hlt]
  exact List.getElem_mem hlt

/-- The weighted-sampling loop runs to completion whenever it is asked for
at most as many rounds as the pool holds, and then returns exactly that
many additional elements. -/
theorem pickLoop_length (g : ℕ → ℕ) :
    ∀ (n t : ℕ) (avail : List Restaurant) (w : List ℚ)
      (chosen : List Restaurant), n ≤ avail.length →
      ∃ res, pickLoop g n t avail w chosen = some res ∧
        res.length = chosen.length + n := by
  intro n
  induction n with
  | zero =>
    intro t avail w chosen _
    exact ⟨chosen, rfl, by simp⟩
  | succ n ih =>
    intro t avail w chosen h
    have hav : avail ≠ [] := by
      intro e
      rw [e] at h
      simp at h
    have hmem := sampled_mem g t hav
    simp only [pickLoop, if_neg hav, pyIndex_eraseIdx]
    set r := avail.getD (g t % avail.length) defaultRestaurant with hr
    have hlen : (avail.erase r).length = avail.length - 1 :=
      List.length_erase_of_mem hmem
    by_cases he : avail.erase r = []
    · have h1 : avail.length = 1 := by
        rw [he] at hlen
        simp at hlen
        have := List.length_pos.mpr hav
        omega
      have hn : n = 0 := by omega
      rw [if_pos he]
      exact ⟨chosen ++ [r], rfl, by simp [hn]⟩
    · rw [if_neg he]
      obtain ⟨res, hres, hreslen⟩ :=
        ih (t + 1) (avail.erase r)
          (w.eraseIdx (pyIndex r avail)) (chosen ++ [r]) (by omega)
      exact ⟨res, hres, by simp at hreslen; omega⟩

/-- On a non-empty candidate list, `pick_restaurants` always succeeds and
returns exactly `max(1, min(limit, len(candidates)))` elements, under
every strategy and every random oracle. -/
theorem pick_restaurants_total (g : ℕ → ℕ) (cands : List Restaurant)
    (lim : ℤ) (s : String) (h : cands ≠ []) :
    ∃ res, pick_restaurants g cands lim s = some res ∧
      (res.length : ℤ) = max 1 (min lim (cands.length : ℤ)) := by
  have hn : 1 ≤ (cands.length : ℤ) := by
    have := List.length_pos.mpr h
    exact_mod_cast this
  set m : ℤ := max 1 (min lim (cands.length : ℤ)) with hm
  have hm1 : 1 ≤ m := le_max_left _ _
  have hmn : m ≤ (cands.length : ℤ) :=
    max_le hn (min_le_right _ _)
  have hk : ((m.toNat : ℤ)) = m := Int.toNat_of_nonneg (by omega)
  have hkn : m.toNat ≤ cands.length := by omega
  unfold pick_restaurants
  rw [if_neg h]
  by_cases hs : s = "top"
  · rw [if_pos hs]
    refine ⟨_, rfl, ?_⟩
    have hslen : (sortedByScoreDesc cands).length = cands.length :=
      (List.perm_insertionSort scoreDescRel cands).length_eq
    rw [List.length_take, hslen]
    omega
  · rw [if_neg hs]
    obtain ⟨res, hres, hlen⟩ :=
      pickLoop_length g m.toNat 0 cands
        ((cands.map fun r => max (score_restaurant r) (1/100)).map
          (fun s => s / (cands.map fun r => max (score_restaurant r) (1/100)).sum))
        [] hkn
    refine ⟨res, hres, ?_⟩
    simp at hlen
    omega

/-- C1 (corrected): an empty candidate list yields `[]` immediately; a
non-empty list yields, for every integer limit and every strategy, a
result of length exactly `min(max(limit, 1), len(candidates))` — the limit
is clamped below to 1 rather than honoured when it is zero or negative. -/
theorem pick_restaurants_length_spec (g : ℕ → ℕ) (cands : List Restaurant)
    (lim : ℤ) (s : String) :
    (cands = [] → pick_restaurants g cands lim s = some [])
    ∧ (cands ≠ [] → ∃ res, pick_restaurants g cands lim s = some res ∧
        (res.length : ℤ) = max 1 (min lim (cands.length : ℤ))) := by
  constructor
  · intro h
    simp [pick_restaurants, h]
  · intro h
    exact pick_restaurants_total g cands lim s h

/-- Witness for C1 at a concrete input. -/
theorem pick_restaurants_length_spec_witness :
    ∃ res,
      pick_restaurants (fun _ => 0) [candA, candB] 5 "weighted_random" = some res ∧
      (res.length : ℤ) =
        max 1 (min 5 (([candA, candB] : List Restaurant).length : ℤ)) :=
  (pick_restaurants_length_spec (fun _ => 0) [candA, candB] 5
    "weighted_random").2 (by decide)

/-- Counterexample for C1 as frozen: with two candidates and `limit = 0`,
the returned list has length 1, not `min(0, 2) = 0`. -/
theorem pick_restaurants_length_cex :
    Option.map List.length
        (pick_restaurants (fun _ => 0) [candA, candB] 0 "top") = some 1
    ∧ Option.map List.length
        (pick_restaurants (fun _ => 0) [candA, candB] 0 "top") ≠
      some (min (0 : ℤ) (([candA, candB] : List Restaurant).length : ℤ)).toNat := by
  have h : Option.map List.length
      (pick_restaurants (fun _ => 0) [candA, candB] 0 "top") = some 1 := by
    have hslen : (sortedByScoreDesc [candA, candB]).length = 2 :=
      (List.perm_insertionSort scoreDescRel [candA, candB]).length_eq
    simp [pick_restaurants, List.length_take, hslen]
  refine ⟨h, ?_⟩
  rw [h]
  simp

/-- C2: for every restaurant, `score_restaurant` equals
`(rating if present else 0) + min(num_reviews if present else 0, 300)/300`
minus a price penalty of `0.5` exactly when `price_level` is present and
at least 4; a restaurant with rating 4.5, 120 reviews and price level 2
scores 4.9, and one with rating 4.5, 500 reviews and price level 4 scores
5.0. -/
theorem score_restaurant_spec :
    (∀ r : Restaurant,
      score_restaurant r =
        r.rating.getD 0 + ((min (r.num_reviews.getD 0) 300 : ℤ) : ℚ) / 300 -
          (match r.price_level with
           | some p => if 4 ≤ p then (1 : ℚ) / 2 else 0
           | none => 0))
    ∧ score_restaurant ⟨"1", "Pasta Palace", "123 Main St", 0, 0, some 4.5,
        some 2, some "italian", "mock", none, some 120⟩ = 4.9
    ∧ score_restaurant ⟨"2", "Sushi Garden", "456 Sakura Ave", 0, 0, some 4.5,
        some 4, some "japanese", "mock", none, some 500⟩ = 5.0 := by
  refine ⟨fun r => ?_, ?_, ?_⟩
  · rcases r with ⟨_, _, _, _, _, rating, price_level, _, _, _, num_reviews⟩
    simp only [score_restaurant, pyOrQ, pyOrZ]
    rcases rating with _ | x <;> rcases num_reviews with _ | n <;>
      rcases price_level with _ | p <;> simp only [Option.getD] <;>
      split_ifs <;> simp_all
  · norm_num [score_restaurant, pyOrQ, pyOrZ, min_def]
  · norm_num [score_restaurant, pyOrQ, pyOrZ, min_def]

/-- The state-passing loop returns the same result as the plain loop and
leaves the caller's list untouched. -/
theorem pickLoopState_eq (g : ℕ → ℕ) :
    ∀ (n t : ℕ) (avail : List Restaurant) (w : List ℚ)
      (chosen rests : List Restaurant),
      pickLoopState g n t avail w chosen rests =
        (pickLoop g n t avail w chosen, rests) := by
  intro n
  induction n with
  | zero => intro t avail w chosen rests; rfl
  | succ n ih =>
    intro t avail w chosen rests
    simp only [pickLoopState, pickLoop]
    split_ifs with h1 h2
    · rfl
    · rfl
    · exact ih (t + 1) _ _ _ rests

/-- C9: `pick_restaurants` never mutates its input: the caller's candidate
list after the call is exactly the list passed in, for every oracle,
limit and strategy, and the returned value is unchanged by the
state-tracking. -/
theorem pick_restaurants_no_mutation (g : ℕ → ℕ) (cands : List Restaurant)
    (lim : ℤ) (s : String) :
    (pick_restaurants_state g cands lim s).2 = cands
    ∧ (pick_restaurants_state g cands lim s).1 =
        pick_restaurants g cands lim s := by
  unfold pick_restaurants_state pick_restaurants
  split_ifs <;> simp [pickLoopState_eq]

/-- C8: every strategy name other than `"top"` takes the weighted-random
path: the result coincides with that of `"weighted_random"` under the same
oracle, and no error is raised (the call never returns `none`). -/
theorem pick_strategy_fallthrough (g : ℕ → ℕ) (cands : List Restaurant)
    (lim : ℤ) (s : String) (h : s ≠ "top") :
    pick_restaurants g cands lim s =
        pick_restaurants g cands lim "weighted_random"
    ∧ pick_restaurants g cands lim s ≠ none := by
  constructor
  · by_cases hc : cands = [] <;> simp [pick_restaurants, hc, h]
  · by_cases hc : cands = []
    · simp [pick_restaurants, hc]
    · obtain ⟨res, hres, -⟩ := pick_restaurants_total g cands lim s hc
      simp [hres]

/-- Witness for C8 at a concrete unrecognised strategy name. -/
theorem pick_strategy_fallthrough_witness :
    pick_restaurants (fun _ => 0) [candA, candB] 2 "banana" =
        pick_restaurants (fun _ => 0) [candA, candB] 2 "weighted_random"
    ∧ pick_restaurants (fun _ => 0) [candA, candB] 2 "banana" ≠ none :=
  pick_strategy_fallthrough (fun _ => 0) [candA, candB] 2 "banana" (by decide)

/-- Inserting an element into a list keeps the sequence of elements of any
fixed score unchanged except for prepending the inserted element when it
has that score: the key stability fact for the descending insertion sort. -/
theorem filter_score_orderedInsert (s : ℚ) (x : Restaurant)
    (l : List Restaurant) :
    (List.orderedInsert scoreDescRel x l).filter
        (fun y => decide (score_restaurant y = s)) =
      if score_restaurant x = s then
        x :: l.filter (fun y => decide (score_restaurant y = s))
      else l.filter (fun y => decide (score_restaurant y = s)) := by
  induction l with
  | nil =>
    simp only [List.orderedInsert, List.filter_cons, List.filter_nil]
    split_ifs with h1 h2 h2 <;> simp_all
  | cons y l ih =>
    simp only [List.orderedInsert]
    by_cases hxy : scoreDescRel x y
    · rw [if_pos hxy]
      simp only [List.filter_cons]
      split_ifs <;> simp_all
    · rw [if_neg hxy]
      have hlt : score_restaurant x < score_restaurant y :=
        lt_of_not_ge hxy
      simp only [List.filter_cons, ih]
      split_ifs with h1 h2 h2 <;> simp_all

/-- Stability of the descending sort: for every score value, the elements
of that score appear in the sorted list in exactly their input order. -/
theorem filter_score_sortedByScoreDesc (s : ℚ) (l : List Restaurant) :
    (sortedByScoreDesc l).filter (fun y => decide (score_restaurant y = s)) =
      l.filter (fun y => decide (score_restaurant y = s)) := by
  induction l with
  | nil => rfl
  | cons x l ih =>
    simp only [sortedByScoreDesc, List.insertionSort] at ih ⊢
    rw [filter_score_orderedInsert]
    split_ifs with h <;> simp [List.filter_cons, h, ih]

/-- C3 (corrected): for every limit of at least 1, strategy `"top"`
returns the first `limit` elements of the stable descending sort of the
candidates by score — the sorted list is a permutation of the input,
sorted by score descending, and score-ties keep their input order — and
the result is independent of the random oracle (determinism). -/
theorem pick_top_spec (g g' : ℕ → ℕ) (cands : List Restaurant) (lim : ℤ)
    (h : 1 ≤ lim) :
    pick_restaurants g cands lim "top" =
        some ((sortedByScoreDesc cands).take lim.toNat)
    ∧ List.Sorted scoreDescRel (sortedByScoreDesc cands)
    ∧ (sortedByScoreDesc cands).Perm cands
    ∧ (∀ s : ℚ,
        (sortedByScoreDesc cands).filter
            (fun y => decide (score_restaurant y = s)) =
          cands.filter (fun y => decide (score_restaurant y = s)))
    ∧ pick_restaurants g cands lim "top" =
        pick_restaurants g' cands lim "top" := by
  refine ⟨?_, List.sorted_insertionSort scoreDescRel cands,
    List.perm_insertionSort scoreDescRel cands,
    fun s => filter_score_sortedByScoreDesc s cands, ?_⟩
  · by_cases hc : cands = []
    · simp [pick_restaurants, hc, sortedByScoreDesc, List.insertionSort]
    · have hn : 1 ≤ (cands.length : ℤ) := by
        have := List.length_pos.mpr hc
        exact_mod_cast this
      simp only [pick_restaurants, if_neg hc, if_pos rfl]
      have hslen : (sortedByScoreDesc cands).length = cands.length :=
        (List.perm_insertionSort scoreDescRel cands).length_eq
      have : (sortedByScoreDesc cands).take
            ((max 1 (min lim (cands.length : ℤ))).toNat) =
          (sortedByScoreDesc cands).take lim.toNat := by
        rw [List.take_eq_take, hslen]
        omega
      rw [this]
      simp
  · by_cases hc : cands = [] <;> simp [pick_restaurants, hc]

/-- Witness for C3 at a concrete input. -/
theorem pick_top_spec_witness :
    pick_restaurants (fun _ => 0) [candA, candB] 2 "top" =
        some ((sortedByScoreDesc [candA, candB]).take (Int.toNat 2))
    ∧ List.Sorted scoreDescRel (sortedByScoreDesc [candA, candB])
    ∧ (sortedByScoreDesc [candA, candB]).Perm [candA, candB]
    ∧ (∀ s : ℚ,
        (sortedByScoreDesc [candA, candB]).filter
            (fun y => decide (score_restaurant y = s)) =
          [candA, candB].filter (fun y => decide (score_restaurant y = s)))
    ∧ pick_restaurants (fun _ => 0) [candA, candB] 2 "top" =
        pick_restaurants (fun _ => 1) [candA, candB] 2 "top" :=
  pick_top_spec (fun _ => 0) (fun _ => 1) [candA, candB] 2 (by decide)

/-- Counterexample for C3 as frozen: at `limit = 0` the first `limit`
elements of the sorted candidates form the empty list, yet the call
returns a non-empty result. -/
theorem pick_top_spec_cex :
    (sortedByScoreDesc [candA, candB]).take (Int.toNat 0) = []
    ∧ pick_restaurants (fun _ => 0) [candA, candB] 0 "top" ≠ some [] := by
  constructor
  · simp
  · intro hcontra
    have hslen : (sortedByScoreDesc [candA, candB]).length = 2 :=
      (List.perm_insertionSort scoreDescRel [candA, candB]).length_eq
    have h1 : Option.map List.length
        (pick_restaurants (fun _ => 0) [candA, candB] 0 "top") = some 1 := by
      simp [pick_restaurants, List.length_take, hslen]
    rw [hcontra] at h1
    simp at h1

/-- The loop samples without replacement: whatever it returns carries no
duplicated restaurant id, provided the ids of the accumulator and the pool
together are distinct. -/
theorem pickLoop_nodup (g : ℕ → ℕ) :
    ∀ (n t : ℕ) (avail : List Restaurant) (w : List ℚ)
      (chosen res : List Restaurant),
      ((chosen ++ avail).map Restaurant.id).Nodup →
      pickLoop g n t avail w chosen = some res →
      (res.map Restaurant.id).Nodup := by
  intro n
  induction n with
  | zero =>
    intro t avail w chosen res hnd heq
    simp only [pickLoop, Option.some.injEq] at heq
    subst heq
    rw [List.map_append] at hnd
    exact hnd.of_append_left
  | succ n ih =>
    intro t avail w chosen res hnd heq
    by_cases hav : avail = []
    · simp [pickLoop, hav] at heq
    · simp only [pickLoop, if_neg hav, pyIndex_eraseIdx] at heq
      set r := avail.getD (g t % avail.length) defaultRestaurant with hr
      have hmem : r ∈ avail := sampled_mem g t hav
      have hperm : ((chosen ++ [r]) ++ avail.erase r).Perm (chosen ++ avail) := by
        rw [List.append_assoc]
        exact List.Perm.append_left chosen
          (by simpa using (List.perm_cons_erase hmem).symm)
      have hnd' : (((chosen ++ [r]) ++ avail.erase r).map Restaurant.id).Nodup :=
        ((hperm.map Restaurant.id).nodup_iff).mpr hnd
      by_cases he : avail.erase r = []
      · rw [if_pos he, Option.some.injEq] at heq
        subst heq
        rw [List.map_append] at hnd'
        exact hnd'.of_append_left
      · rw [if_neg he] at heq
        exact ih (t + 1) _ _ _ res hnd' heq

/-- C4 (corrected): when the candidate ids are pairwise distinct, the
result of `pick_restaurants` — under either strategy, any oracle, and any
limit at most the candidate count — never contains two entries with the
same restaurant id; the weighted branch removes each round's chosen item
from the pool before the next round. -/
theorem pick_no_duplicate_ids (g : ℕ → ℕ) (cands : List Restaurant)
    (lim : ℤ) (s : String) (hlim : lim ≤ (cands.length : ℤ))
    (hnd : (cands.map Restaurant.id).Nodup) (res : List Restaurant)
    (hres : pick_restaurants g cands lim s = some res) :
    (res.map Restaurant.id).Nodup := by
  by_cases hc : cands = []
  · simp [pick_restaurants, hc] at hres
    subst hres
    simp
  · by_cases hs : s = "top"
    · rw [hs] at hres
      simp only [pick_restaurants] at hres
      rw [if_neg hc, if_true, Option.some.injEq] at hres
      subst hres
      have hsortnd : ((sortedByScoreDesc cands).map Restaurant.id).Nodup :=
        (((List.perm_insertionSort scoreDescRel cands).map
          Restaurant.id).nodup_iff).mpr hnd
      exact List.Nodup.sublist
        (List.Sublist.map Restaurant.id (List.take_sublist _ _)) hsortnd
    · simp only [pick_restaurants, if_neg hc, if_neg hs] at hres
      exact pickLoop_nodup g _ 0 cands _ [] res (by simpa using hnd) hres

/-- Witness for C4 at a concrete input on the weighted-random path. -/
theorem pick_no_duplicate_ids_witness :
    (([candA, candB] : List Restaurant).map Restaurant.id).Nodup :=
  pick_no_duplicate_ids (fun _ => 0) [candA, candB] 2 "weighted_random"
    (by decide) (by decide) [candA, candB] (by decide)

/-- Counterexample for C4 as frozen: two distinct candidates sharing the
id `"a"` are both returned by the `"top"` strategy at `limit = 2`, so the
result repeats a restaurant id even though `limit ≤ candidate_count`. -/
theorem pick_no_duplicate_ids_cex :
    Option.map (List.map Restaurant.id)
        (pick_restaurants (fun _ => 0) [candA, candA2] 2 "top") =
      some ["a", "a"]
    ∧ ¬ (["a", "a"] : List String).Nodup
    ∧ (2 : ℤ) ≤ (([candA, candA2] : List Restaurant).length : ℤ) := by
  refine ⟨?_, by decide, by decide⟩
  have h : pick_restaurants (fun _ => 0) [candA, candA2] 2 "top" =
      some ((sortedByScoreDesc [candA, candA2]).take 2) := by
    norm_num [pick_restaurants]
    rw [if_neg (show ¬([candA, candA2] = ([] : List Restaurant)) by decide)]
    rfl
  rw [h]
  simp only [sortedByScoreDesc, List.insertionSort, List.orderedInsert]
  by_cases hrel : scoreDescRel candA candA2
  · rw [if_pos hrel]
    simp [candA, candA2]
  · rw [if_neg hrel]
    simp [candA, candA2]

/-- A bare `%` pattern accepts every string. -/
theorem likeMatch_percent_nil : ∀ s, likeMatch ['%'] s = true := by
  intro s
  induction s with
  | nil => simp [likeMatch]
  | cons d s ih => simp [likeMatch, ih]

/-- Matching a list with nothing left of the string succeeds exactly on
the empty needle. -/
theorem listStarts_nil (L : List Char) : listStarts L [] = L.isEmpty := by
  cases L <;> rfl

/-- A metacharacter-free pattern followed by `%` matches a string exactly
when the string starts with the pattern. -/
theorem likeMatch_plain (L : List Char) (hL : ∀ c ∈ L, c ≠ '%' ∧ c ≠ '_') :
    ∀ s, likeMatch (L ++ ['%']) s = listStarts L s := by
  induction L with
  | nil =>
    intro s
    simp [likeMatch_percent_nil s, listStarts]
  | cons c L ih =>
    intro s
    obtain ⟨hc1, hc2⟩ := hL c (by simp)
    have ihL : ∀ c ∈ L, c ≠ '%' ∧ c ≠ '_' := fun d hd => hL d (by simp [hd])
    cases s with
    | nil => simp [likeMatch, listStarts, hc1]
    | cons d s =>
      simp only [List.cons_append, likeMatch, if_neg hc1, if_neg hc2,
        listStarts]
      rw [ih ihL s]

/-- Key `LIKE` semantics: for a metacharacter-free core `L`, the pattern
`%L%` matches a string exactly when `L` occurs as a contiguous substring. -/
theorem likeMatch_sub (L : List Char) (hL : ∀ c ∈ L, c ≠ '%' ∧ c ≠ '_') :
    ∀ s, likeMatch ('%' :: (L ++ ['%'])) s = listSub L s := by
  intro s
  induction s with
  | nil =>
    show likeMatch ('%' :: (L ++ ['%'])) [] = listSub L []
    simp only [likeMatch, if_true, eq_self_iff_true, likeMatch_plain L hL,
      listStarts_nil, listSub]
  | cons d s ih =>
    simp only [likeMatch, if_true, eq_self_iff_true,
      likeMatch_plain L hL, listSub, ih]

/-- For a location free of `LIKE` metacharacters, the generated location
clause is exactly case-insensitive substring containment in city, address
or name. -/
theorem rowMatchesLocation_eq_spec (L : String)
    (h : noLikeMeta (strLower L)) (row : RestaurantRow) :
    rowMatchesLocation L row = specLocationMatch L row := by
  have hpat : (locationPattern L).data =
      '%' :: ((strLower L).data ++ ['%']) := rfl
  have hlike : ∀ f : String, likeMatch (locationPattern L).data f.data =
      listSub (strLower L).data f.data := by
    intro f
    rw [hpat]
    exact likeMatch_sub (strLower L).data h f.data
  unfold rowMatchesLocation specLocationMatch colLike
  rcases row.city with _ | c <;> simp [hlike]

/-- C7 (corrected): for every location string free of the `LIKE`
metacharacters `%` and `_`, the database search returns exactly the rows
whose lowercased city, address, or name contains the lowercased location
as a substring, subject to the unchanged cuisine / rating / price filters,
ordering, and limit; the metacharacters themselves are not escaped, so for
strings containing them the clause follows `LIKE` wildcard semantics
instead. -/
theorem search_location_substring (db : List RestaurantRow) (L : String)
    (cuisine : Option String) (min_rating : Option ℚ)
    (max_price_level : Option ℤ) (lim : ℤ)
    (h : noLikeMeta (strLower L)) :
    search_restaurants_db db (some L) cuisine min_rating max_price_level lim =
      search_restaurants_spec db L cuisine min_rating max_price_level lim := by
  have harg : (if strOptTruthy (some L) then
        db.filter (rowMatchesLocation ((some L).getD "")) else db) =
      db.filter (specLocationMatch L) := by
    by_cases hL : L = ""
    · subst hL
      have hfalse : strOptTruthy (some "") = false := by
        simp [strOptTruthy]
      rw [hfalse]
      have hall : ∀ row ∈ db, specLocationMatch "" row = true := by
        intro row _
        unfold specLocationMatch
        have hsub : listSub (strLower "").data (strLower row.address).data =
            true := by
          have hnil : (strLower "").data = [] := rfl
          rw [hnil]
          cases (strLower row.address).data with
          | nil => rfl
          | cons d s => simp [listSub, listStarts]
        simp [hsub]
      simp only [if_false, Bool.false_eq_true]
      exact (List.filter_eq_self.mpr hall).symm
    · have htrue : strOptTruthy (some L) = true := by
        simp [strOptTruthy, hL]
      rw [if_pos htrue]
      exact List.filter_congr
        (fun row _ => rowMatchesLocation_eq_spec L h row)
  simp only [search_restaurants_db, search_restaurants_spec]
  rw [harg]

/-- Witness for C7 at the concrete location of the spec's example. -/
theorem search_location_substring_witness :
    search_restaurants_db [rowNY, rowABC] (some "new york") none none none 20 =
      search_restaurants_spec [rowNY, rowABC] "new york" none none none 20 :=
  search_location_substring [rowNY, rowABC] "new york" none none none 20
    (by decide)

/-- Counterexample for C7 as frozen: the location string `"a_c"` contains
the `LIKE` metacharacter `_`, and the search returns the stored row named
`"abc"` even though `"a_c"` does not occur as a substring of any of its
fields. -/
theorem search_location_substring_cex :
    search_restaurants_db [rowABC] (some "a_c") none none none 20 = [rowABC]
    ∧ specLocationMatch "a_c" rowABC = false := by
  refine ⟨?_, by decide⟩
  have hmatch : rowMatchesLocation "a_c" rowABC = true := by
    simp [rowMatchesLocation, colLike, locationPattern, strLower, rowABC,
      likeMatch]
  simp [search_restaurants_db, searchQueryTail, strOptTruthy, hmatch,
    List.insertionSort, List.orderedInsert]

/-- C6 (corrected): `max_results` is validated against the declared bounds
`[1, 50]` with default 20 — a request whose `max_results` lies outside the
interval is rejected by FastAPI with a validation error rather than being
clamped and served, and a valid request returns at most `max_results`
rows. -/
theorem search_max_results_validation (db : List RestaurantRow)
    (q : SearchQuery) :
    ((q.max_results < 1 ∨ 50 < q.max_results) → search_endpoint db q = none)
    ∧ (validSearchQuery q = true →
        ∃ l, search_endpoint db q = some l ∧ (l.length : ℤ) ≤ q.max_results
          ∧ 1 ≤ q.max_results ∧ q.max_results ≤ 50)
    ∧ searchMaxResultsDefault = 20 := by
  refine ⟨?_, ?_, rfl⟩
  · intro hout
    have hbad : decide (1 ≤ q.max_results ∧ q.max_results ≤ 50) = false := by
      simp only [decide_eq_false_iff_not]
      omega
    have hval : validSearchQuery q = false := by
      unfold validSearchQuery
      rw [hbad]
      simp
    simp [search_endpoint, hval]
  · intro hval
    have hbounds : 1 ≤ q.max_results ∧ q.max_results ≤ 50 := by
      unfold validSearchQuery at hval
      simp only [Bool.and_eq_true, decide_eq_true_eq] at hval
      exact hval.2
    have hlen : (search_restaurants_db db (some q.location) q.cuisine
        q.min_rating q.max_price_level q.max_results).length ≤
        q.max_results.toNat := by
      unfold search_restaurants_db searchQueryTail
      exact List.length_take_le _ _
    have hsome : search_endpoint db q =
        some (search_restaurants_db db (some q.location) q.cuisine
          q.min_rating q.max_price_level q.max_results) := by
      simp [search_endpoint, hval]
    exact ⟨_, hsome, by omega, hbounds.1, hbounds.2⟩

/-- Witness for C6 at a concrete in-range request. -/
theorem search_max_results_validation_witness :
    ∃ l, search_endpoint [rowNY]
          ⟨"new york", none, none, none, 20⟩ = some l ∧
        (l.length : ℤ) ≤ (20 : ℤ) ∧ (1 : ℤ) ≤ (20 : ℤ) ∧ (20 : ℤ) ≤ 50 := by
  exact (search_max_results_validation [rowNY]
    ⟨"new york", none, none, none, 20⟩).2.1 (by decide)

/-- Counterexample for C6 as frozen: requests with `max_results = 51` and
`max_results = 0` are rejected (validation error), not served with the cap
clamped to 50 or 1. -/
theorem search_max_results_validation_cex :
    search_endpoint [rowNY] ⟨"new york", none, none, none, 51⟩ = none
    ∧ search_endpoint [rowNY] ⟨"new york", none, none, none, 0⟩ = none := by
  constructor <;> decide

/-- Membership survives Python slicing `data[:k]`. -/
theorem mem_pyTake {α : Type} {r : α} {k : ℤ} {l : List α} :
    r ∈ pyTake k l → r ∈ l := by
  unfold pyTake
  split_ifs <;> exact fun h => List.take_subset _ _ h

/-- C10: the mock provider ignores `location` and `radius_km` — two calls
differing only in them return identical lists; every returned restaurant
comes from the static three-record sample data; with a (truthy) cuisine
every returned restaurant matches it case-insensitively and exactly; and
the result is truncated to the first `max_results` entries. -/
theorem mock_search_independent :
    (∀ (loc₁ loc₂ : String) (rad₁ rad₂ : ℚ) (cuisine : Option String)
      (n : ℤ), mock_search_restaurants loc₁ rad₁ cuisine n =
        mock_search_restaurants loc₂ rad₂ cuisine n)
    ∧ (∀ (loc : String) (rad : ℚ) (cuisine : Option String) (n : ℤ)
        (r : Restaurant), r ∈ mock_search_restaurants loc rad cuisine n →
          r ∈ mockSampleData)
    ∧ (∀ (loc : String) (rad : ℚ) (c : String) (n : ℤ) (r : Restaurant),
        c ≠ "" → r ∈ mock_search_restaurants loc rad (some c) n →
          strLower (pyOrStr r.cuisine "") = strLower c)
    ∧ (∀ (loc : String) (rad : ℚ) (cuisine : Option String) (n : ℤ),
        0 ≤ n → ((mock_search_restaurants loc rad cuisine n).length : ℤ) ≤ n) := by
  refine ⟨fun _ _ _ _ _ _ => rfl, ?_, ?_, ?_⟩
  · intro loc rad cuisine n r h
    unfold mock_search_restaurants at h
    have h2 := mem_pyTake h
    by_cases hcu : strOptTruthy cuisine = true
    · rw [if_pos hcu] at h2
      exact (List.mem_filter.mp h2).1
    · rw [if_neg hcu] at h2
      exact h2
  · intro loc rad c n r hc h
    unfold mock_search_restaurants at h
    have htrue : strOptTruthy (some c) = true := by
      simp [strOptTruthy, hc]
    rw [htrue] at h
    have h2 := mem_pyTake h
    rw [if_pos rfl] at h2
    have h3 := (List.mem_filter.mp h2).2
    simpa using h3
  · intro loc rad cuisine n hn
    unfold mock_search_restaurants pyTake
    rw [if_pos hn]
    have := List.length_take_le n.toNat
      (if strOptTruthy cuisine then
        mockSampleData.filter (fun r =>
          decide (strLower (pyOrStr r.cuisine "") =
            strLower (cuisine.getD "")))
      else mockSampleData)
    omega

/-- Witness for C10 at concrete differing locations and radii. -/
theorem mock_search_independent_witness :
    mock_search_restaurants "Warsaw" 5 (some "italian") 2 =
        mock_search_restaurants "Tokyo" 99 (some "italian") 2
    ∧ ((mock_search_restaurants "Warsaw" 5 (some "italian") 2).length : ℤ)
        ≤ 2 :=
  ⟨mock_search_independent.1 "Warsaw" "Tokyo" 5 99 (some "italian") 2,
   mock_search_independent.2.2.2 "Warsaw" 5 (some "italian") 2 (by decide)⟩

/-- C5 (corrected): no floor is applied to the cosine denominator.  For
every latitude strictly between −90 and 90 the denominator
`111·|cos(radians(lat))|` is nonzero and the longitude half-width is the
plain quotient, so a near-polar search (e.g. 89°) raises no division
error; the counterexample shows the exact denominator vanishes at 90°. -/
theorem lng_delta_safe (lat radius : ℝ) (h1 : -90 < lat) (h2 : lat < 90) :
    lngDenominator lat ≠ 0
    ∧ lng_delta radius lat = some (radius / lngDenominator lat) := by
  have hmem : sqlRadians lat ∈ Set.Ioo (-(Real.pi / 2)) (Real.pi / 2) := by
    have hstep1 : (-90 : ℝ) * (Real.pi / 180) < lat * (Real.pi / 180) :=
      mul_lt_mul_of_pos_right h1 (by positivity)
    have hstep2 : lat * (Real.pi / 180) < 90 * (Real.pi / 180) :=
      mul_lt_mul_of_pos_right h2 (by positivity)
    unfold sqlRadians
    constructor
    · nlinarith [hstep1]
    · nlinarith [hstep2]
  have hcos : 0 < Real.cos (sqlRadians lat) := Real.cos_pos_of_mem_Ioo hmem
  have hpos : 0 < lngDenominator lat := by
    unfold lngDenominator
    have habs : 0 < |Real.cos (sqlRadians lat)| :=
      abs_pos.mpr (ne_of_gt hcos)
    nlinarith [habs]
  have hne : lngDenominator lat ≠ 0 := ne_of_gt hpos
  exact ⟨hne, by simp [lng_delta, hne]⟩

/-- Witness for C5 at the near-polar latitude 89°. -/
theorem lng_delta_safe_witness :
    lngDenominator 89 ≠ 0
    ∧ lng_delta 5 89 = some (5 / lngDenominator 89) :=
  lng_delta_safe 89 5 (by norm_num) (by norm_num)

/-- Counterexample for C5 as frozen: at latitude 90 (inside the claimed
interval `[-90, 90]`) the unfloored denominator is exactly zero and the
division raises. -/
theorem lng_delta_cex :
    lngDenominator 90 = 0 ∧ lng_delta 5 90 = none := by
  have h0 : Real.cos (sqlRadians 90) = 0 := by
    have h : sqlRadians 90 = Real.pi / 2 := by
      unfold sqlRadians
      ring
    rw [h, Real.cos_pi_div_two]
  have hd : lngDenominator 90 = 0 := by
    unfold lngDenominator
    rw [h0]
    simp
  exact ⟨hd, by simp [lng_delta, hd]⟩

end RestaurantPicker
